import Mathlib

/-!
Verification of the cooking-session state machine
(`src/autonomous-food-system/src/backend/routes/cooking.js`, class `CookingSession`)
and the consumption/waste tracker (`ConsumptionProfile` model) of the
TruMate / autonomous-food-system repository.

The embedding is shallow: each JavaScript method becomes a Lean function on an
explicit state record.  Timestamps (`Date.now()` values, `new Date()` objects)
are passed in explicitly as parameters, since the claims never depend on the
actual wall clock.  JavaScript numbers are modelled exactly: plain rationals
where only finite arithmetic can occur (the session code), and a dedicated
`JsNum` type with `NaN` / `Infinity` for the consumption model, whose
waste-percentage division can produce non-finite values.
-/

namespace Cooking

/-- Session status strings used by `CookingSession` (`'initialized'`,
`'in_progress'`, `'paused'`, `'completed'`, `'aborted'`). -/
inductive Status
  | initialized
  | inProgress
  | paused
  | completed
  | aborted
deriving DecidableEq, Repr

/-- One entry of `recipe.instructions`: `{ step, timing }`; `timing` (minutes)
may be absent. -/
structure Instruction where
  step : String
  timing : Option ℚ
deriving DecidableEq, Repr

/-- One entry of `this.stepTimings`. `endTime` / `actualDuration` are set only
when the following step is advanced to. -/
structure StepTiming where
  stepIndex : ℕ
  startTime : ℤ
  expectedDuration : Option ℚ
  endTime : Option ℤ
  actualDuration : Option ℤ
deriving DecidableEq, Repr

/-- One entry of `this.sensorData`. -/
structure SensorReading where
  sensorType : String
  value : ℚ
  timestamp : ℤ
  stepIndex : ℕ
deriving DecidableEq, Repr

/-- A value of `this.qualityMetrics[metric]`. -/
structure QualityMetric where
  value : ℚ
  timestamp : ℤ
  stepIndex : ℕ
deriving DecidableEq, Repr

/-- The mutable state of a `CookingSession`.  Identity fields (`id`,
`recipeId`, `notes`, …) and `updatedAt` are irrelevant to every claim and are
omitted; `recipe` is the immutable instruction list snapshot. -/
structure Session where
  recipe : List Instruction
  status : Status
  currentStep : ℕ
  startTime : Option ℤ
  endTime : Option ℤ
  pausedTime : ℤ
  stepTimings : List StepTiming
  sensorData : List SensorReading
  qualityMetrics : List (String × QualityMetric)
  errors : List String
deriving DecidableEq, Repr

/-- The `CookingSession` constructor: `status = 'initialized'`,
`currentStep = 0`, empty logs, `startTime = endTime = null`. -/
def mkSession (recipe : List Instruction) : Session :=
  { recipe := recipe
    status := .initialized
    currentStep := 0
    startTime := none
    endTime := none
    pausedTime := 0
    stepTimings := []
    sensorData := []
    qualityMetrics := []
    errors := [] }

/-- `CookingProcessError` thrown by the state-machine guards. -/
structure CookingProcessError where
  message : String
deriving DecidableEq, Repr

/-- `CookingSession.start()`. -/
def start (s : Session) (now : ℤ) : Except CookingProcessError Session :=
  if s.status ≠ .initialized then
    .error ⟨"Session already started or completed"⟩
  else
    .ok { s with status := .inProgress, startTime := some now }

/-- `CookingSession.pause()`. -/
def pause (s : Session) (now : ℤ) : Except CookingProcessError Session :=
  if s.status ≠ .inProgress then
    .error ⟨"Cannot pause session that is not in progress"⟩
  else
    .ok { s with status := .paused, pausedTime := now }

/-- `CookingSession.resume()`. -/
def resume (s : Session) : Except CookingProcessError Session :=
  if s.status ≠ .paused then
    .error ⟨"Cannot resume session that is not paused"⟩
  else
    .ok { s with status := .inProgress, pausedTime := 0 }

/-- `CookingSession.calculateRemainingTime()`: sum of the `timing` fields of
the instructions from the current step on (an absent or zero `timing` is
skipped, since `if (instruction.timing)` treats `0`/`undefined` as falsy). -/
def calculateRemainingTime (s : Session) : ℚ :=
  (s.recipe.drop s.currentStep).foldl
    (fun acc ins =>
      match ins.timing with
      | some t => if t = 0 then acc else acc + t
      | none => acc) 0

/-- The three result shapes of `CookingSession.getCurrentStepInfo()`. -/
structure StepInfoData where
  currentStep : ℕ
  totalSteps : ℕ
  currentInstruction : Option Instruction
  nextInstruction : Option Instruction
  progress : ℚ
  estimatedTimeRemaining : ℚ
deriving DecidableEq, Repr

/-- Result of `getCurrentStepInfo()`: the `currentStep === 0` message, the
`currentStep > instructions.length` message, or the step-info object. -/
inductive CurrentStepInfo
  | ready
  | allCompleted
  | info (d : StepInfoData)
deriving DecidableEq, Repr

/-- `CookingSession.getCurrentStepInfo()`. -/
def getCurrentStepInfo (s : Session) : CurrentStepInfo :=
  if s.currentStep = 0 then .ready
  else if s.currentStep > s.recipe.length then .allCompleted
  else
    .info
      { currentStep := s.currentStep
        totalSteps := s.recipe.length
        currentInstruction := s.recipe.get? (s.currentStep - 1)
        nextInstruction := s.recipe.get? s.currentStep
        progress := (s.currentStep : ℚ) / (s.recipe.length : ℚ) * 100
        estimatedTimeRemaining := calculateRemainingTime s }

/-- The "Record timing for previous step" block of `nextStep()`: when
`currentStep > 0`, step `currentStep - 1` gets `endTime`/`actualDuration`;
the fallback `stepTimings[prev]?.startTime || this.startTime` falls back when
the entry is missing or its start time is the falsy `0` (a `null` session
start time coerces to `0` in the subtraction). -/
def newPrevTimings (s : Session) (now : ℤ) : List StepTiming :=
  if s.currentStep > 0 then
    match s.stepTimings.get? (s.currentStep - 1) with
    | some st =>
        s.stepTimings.set (s.currentStep - 1)
          { st with
              endTime := some now
              actualDuration :=
                some (now - (if st.startTime = 0 then s.startTime.getD 0 else st.startTime)) }
    | none => s.stepTimings
  else s.stepTimings

/-- State after the previous-step-timing update inside `nextStep()`. -/
def recordPrevTiming (s : Session) (now : ℤ) : Session :=
  { s with stepTimings := newPrevTimings s now }

/-- The summary object returned by `CookingSession.complete()`. -/
structure CompletionSummary where
  totalDuration : ℤ
  stepTimings : List StepTiming
  qualityMetrics : List (String × QualityMetric)
deriving DecidableEq, Repr

/-- `CookingSession.complete()`: sets status `'completed'`, records the end
time, and returns the final timing/quality summary (`endTime - startTime`; a
`null` start time coerces to `0`). -/
def complete (s : Session) (now : ℤ) : Session × CompletionSummary :=
  let s2 := { s with status := .completed, endTime := some now }
  (s2, { totalDuration := now - s.startTime.getD 0
         stepTimings := s2.stepTimings
         qualityMetrics := s2.qualityMetrics })

/-- JavaScript dense-array assignment `stepTimings[i] = t` as it occurs in
`nextStep()`: in every reachable state the written index is at most the
length, so the write is either an in-place update or a push. -/
def setTiming (l : List StepTiming) (i : ℕ) (t : StepTiming) : List StepTiming :=
  if i < l.length then l.set i t else l ++ [t]

/-- `expectedDuration` for the step about to start:
`instructions[currentStep].timing * 60000 || null` (an absent `timing` gives
`NaN`, a zero gives `0`; both are falsy, hence `null`). -/
def expectedDurationOf (recipe : List Instruction) (i : ℕ) : Option ℚ :=
  match recipe.get? i with
  | some ins =>
      match ins.timing with
      | some t => if t = 0 then none else some (t * 60000)
      | none => none
  | none => none

/-- The two result shapes of `CookingSession.nextStep()`. -/
inductive StepResult
  | stepInfo (i : CurrentStepInfo)
  | completed (summary : CompletionSummary)
deriving DecidableEq, Repr

/-- The state produced by the non-completing branch of `nextStep()`: after the
previous-step-timing update, `stepTimings[currentStep]` is assigned the fresh
timing record and `currentStep` is incremented. -/
def advanceState (s : Session) (now : ℤ) : Session :=
  { recordPrevTiming s now with
      stepTimings :=
        setTiming (recordPrevTiming s now).stepTimings s.currentStep
          { stepIndex := s.currentStep
            startTime := now
            expectedDuration := expectedDurationOf s.recipe s.currentStep
            endTime := none
            actualDuration := none }
      currentStep := s.currentStep + 1 }

/-- `CookingSession.nextStep()`: guard on `'in_progress'`; record timing of
the previous step; if `currentStep >= instructions.length`, complete and
return the final summary; otherwise start timing for the current step,
increment `currentStep` and return the current step info. -/
def nextStep (s : Session) (now : ℤ) : Except CookingProcessError (Session × StepResult) :=
  if s.status ≠ .inProgress then
    .error ⟨"Cannot advance step when session is not in progress"⟩
  else if s.recipe.length ≤ s.currentStep then
    .ok ((complete (recordPrevTiming s now) now).1,
         .completed (complete (recordPrevTiming s now) now).2)
  else
    .ok (advanceState s now, .stepInfo (getCurrentStepInfo (advanceState s now)))

/-- `CookingSession.abort(reason)`: unguarded; sets status `'aborted'`,
records the end time and appends an error entry. -/
def abort (s : Session) (reason : String) (now : ℤ) : Session :=
  { s with
      status := .aborted
      endTime := some now
      errors := s.errors ++ [reason] }

/-- `CookingSession.addSensorData(sensorType, value, timestamp)`: appends a
reading tagged with the current step index; the automation hook only logs and
changes no session state. -/
def addSensorData (s : Session) (sensorType : String) (value : ℚ) (timestamp : ℤ) : Session :=
  { s with
      sensorData :=
        s.sensorData ++ [{ sensorType := sensorType, value := value,
                           timestamp := timestamp, stepIndex := s.currentStep }] }

/-- Association-list overwrite used for `this.qualityMetrics[metric] = …`
(last-write-wins per key). -/
def setMetric (l : List (String × QualityMetric)) (k : String) (v : QualityMetric) :
    List (String × QualityMetric) :=
  match l with
  | [] => [(k, v)]
  | (k0, v0) :: rest => if k0 = k then (k, v) :: rest else (k0, v0) :: setMetric rest k v

/-- `CookingSession.updateQualityMetric(metric, value)`. -/
def updateQualityMetric (s : Session) (metric : String) (value : ℚ) (now : ℤ) : Session :=
  { s with
      qualityMetrics :=
        setMetric s.qualityMetrics metric
          { value := value, timestamp := now, stepIndex := s.currentStep } }

/-- One client-visible operation on a session (the REST route handlers). -/
inductive Op
  | start (now : ℤ)
  | pause (now : ℤ)
  | resume
  | advanceStep (now : ℤ)
  | abort (reason : String) (now : ℤ)
  | sensor (sensorType : String) (value : ℚ) (timestamp : ℤ)
  | quality (metric : String) (value : ℚ) (now : ℤ)
deriving DecidableEq, Repr

/-- Route-layer semantics: a thrown `CookingProcessError` is caught by the
handler and the stored session is left exactly as it was (every guard in the
source throws before any field is assigned). -/
def applyOp (s : Session) : Op → Session
  | .start t => match start s t with | .ok s2 => s2 | .error _ => s
  | .pause t => match pause s t with | .ok s2 => s2 | .error _ => s
  | .resume => match resume s with | .ok s2 => s2 | .error _ => s
  | .advanceStep t => match nextStep s t with | .ok r => r.1 | .error _ => s
  | .abort reason t => abort s reason t
  | .sensor ty v ts => addSensorData s ty v ts
  | .quality m v t => updateQualityMetric s m v t

/-- Iterated `nextStep`: `nextStepN times s n` performs `n` advance calls, the
`i`-th at wall-clock time `times i`, stopping at the first error. -/
def nextStepN (times : ℕ → ℤ) (s : Session) : ℕ → Except CookingProcessError Session
  | 0 => .ok s
  | n + 1 =>
      match nextStepN times s n with
      | .error e => .error e
      | .ok s2 =>
          match nextStep s2 (times n) with
          | .error e => .error e
          | .ok r => .ok r.1

/-- Observable outcome of one `nextStep` call, for concrete scenario runs:
the step info numbers, the number of timing records of a completion summary,
or an error.  On error the session is returned unchanged (route semantics). -/
inductive Obs
  | step (currentStep totalSteps : ℕ)
  | done (numTimings : ℕ)
  | other
  | err
deriving DecidableEq, Repr

/-- Run one `nextStep` call and observe its outcome. -/
def obsNext (s : Session) (t : ℤ) : Obs × Session :=
  match nextStep s t with
  | .ok (s2, .stepInfo (.info d)) => (.step d.currentStep d.totalSteps, s2)
  | .ok (s2, .stepInfo .ready) => (.other, s2)
  | .ok (s2, .stepInfo .allCompleted) => (.other, s2)
  | .ok (s2, .completed summary) => (.done summary.stepTimings.length, s2)
  | .error _ => (.err, s)

/-- The two-step recipe of the spec scenario:
`[{step:"a", timing:5},{step:"b", timing:10}]`. -/
def recipeAB : List Instruction := [⟨"a", some 5⟩, ⟨"b", some 10⟩]

end Cooking

namespace Consumption

/-- A JavaScript number: a finite value (modelled as an exact rational),
`NaN`, `Infinity` or `-Infinity`.  Finite arithmetic is modelled exactly;
the claims under verification do not depend on rounding. -/
inductive JsNum
  | fin (q : ℚ)
  | nan
  | inf
  | ninf
deriving DecidableEq, Repr

namespace JsNum

/-- Unary minus. -/
def neg : JsNum → JsNum
  | fin q => fin (-q)
  | nan => nan
  | inf => ninf
  | ninf => inf

/-- IEEE-style addition. -/
def add : JsNum → JsNum → JsNum
  | nan, _ => nan
  | _, nan => nan
  | inf, ninf => nan
  | ninf, inf => nan
  | inf, _ => inf
  | _, inf => inf
  | ninf, _ => ninf
  | _, ninf => ninf
  | fin a, fin b => fin (a + b)

/-- IEEE-style subtraction (`a - b = a + (-b)`). -/
def sub (a b : JsNum) : JsNum := add a (neg b)

/-- IEEE-style multiplication (`Infinity * 0 = NaN`). -/
def mul : JsNum → JsNum → JsNum
  | nan, _ => nan
  | _, nan => nan
  | inf, inf => inf
  | inf, ninf => ninf
  | ninf, inf => ninf
  | ninf, ninf => inf
  | inf, fin b => if b = 0 then nan else if 0 < b then inf else ninf
  | ninf, fin b => if b = 0 then nan else if 0 < b then ninf else inf
  | fin a, inf => if a = 0 then nan else if 0 < a then inf else ninf
  | fin a, ninf => if a = 0 then nan else if 0 < a then ninf else inf
  | fin a, fin b => fin (a * b)

/-- IEEE-style division (`x / 0` is `NaN` for `x = 0` and `±Infinity`
otherwise; negative zero is not modelled — the dividends of the source are
plain data values, not products of signed zeros). -/
def div : JsNum → JsNum → JsNum
  | nan, _ => nan
  | _, nan => nan
  | inf, inf => nan
  | inf, ninf => nan
  | ninf, inf => nan
  | ninf, ninf => nan
  | inf, fin b => if b < 0 then ninf else inf
  | ninf, fin b => if b < 0 then inf else ninf
  | fin _, inf => fin 0
  | fin _, ninf => fin 0
  | fin a, fin b =>
      if b = 0 then (if a = 0 then nan else if 0 < a then inf else ninf)
      else fin (a / b)

/-- IEEE comparison `<` (false whenever `NaN` is involved). -/
def lt : JsNum → JsNum → Bool
  | nan, _ => false
  | _, nan => false
  | fin a, fin b => decide (a < b)
  | ninf, ninf => false
  | inf, inf => false
  | ninf, _ => true
  | _, inf => true
  | inf, _ => false
  | fin _, ninf => false

/-- IEEE comparison `>`. -/
def gt (a b : JsNum) : Bool := lt b a

/-- `Math.min` (`NaN` if either argument is `NaN`). -/
def min (a b : JsNum) : JsNum :=
  if a = nan ∨ b = nan then nan else if lt a b then a else b

/-- `Math.max` (`NaN` if either argument is `NaN`). -/
def max (a b : JsNum) : JsNum :=
  if a = nan ∨ b = nan then nan else if lt a b then b else a

/-- `Number.isFinite`. -/
def isFinite : JsNum → Bool
  | fin _ => true
  | _ => false

end JsNum

/-- `Array.prototype.reduce((sum, w) => sum + w, 0)` over JavaScript
numbers. -/
def sumJs (l : List JsNum) : JsNum := l.foldl JsNum.add (.fin 0)

/-- The arithmetic mean `list.reduce((s, x) => s + x, 0) / list.length` as the
rolling-average code (`checkForPortionAdjustment`, `calculateOverallWasteRate`)
computes it. -/
def jsMean (l : List JsNum) : JsNum := JsNum.div (sumJs l) (.fin l.length)

/-- A JavaScript `Date`, represented by the observations the source makes of
it: its numeric value in milliseconds and the calendar accessors
(`getFullYear`, `getMonth`, `getDate`, `getDay`, `getHours`). -/
structure Date where
  ms : ℤ
  year : ℤ
  month : ℕ
  dayOfMonth : ℕ
  dayOfWeek : ℕ
  hours : ℕ
deriving DecidableEq, Repr

/-- Association-list lookup (`Map.prototype.get`): first binding wins. -/
def alistLookup {α : Type} (l : List (String × α)) (k : String) : Option α :=
  match l with
  | [] => none
  | (k0, v) :: rest => if k0 = k then some v else alistLookup rest k

/-- Association-list overwrite (`Map.prototype.set`). -/
def alistSet {α : Type} (l : List (String × α)) (k : String) (v : α) : List (String × α) :=
  match l with
  | [] => [(k, v)]
  | (k0, v0) :: rest => if k0 = k then (k, v) :: rest else (k0, v0) :: alistSet rest k v

/-- A consumption record built by `recordConsumption`. -/
structure ConsumptionRecord where
  ingredient : String
  portionServed : JsNum
  portionConsumed : JsNum
  wasteAmount : JsNum
  wastePercentage : JsNum
  timestamp : Date
  dayOfWeek : ℕ
  timeOfDay : ℕ
  season : String
deriving DecidableEq, Repr

/-- One entry of the per-ingredient `consumptionPatterns.daily` list. -/
structure DailyEntry where
  date : String
  amount : JsNum
  timestamp : Date
deriving DecidableEq, Repr

/-- The `adjustmentSettings` block of a profile. -/
structure AdjustmentSettings where
  autoAdjustEnabled : Bool
  adjustmentThreshold : JsNum
  consultationRequired : Bool
  maxAdjustmentPerCycle : JsNum
  learningRate : JsNum
deriving DecidableEq, Repr

/-- The constructor defaults: threshold `0.15`, consultation required,
max adjustment per cycle `0.20`, learning rate `0.1`. -/
def defaultAdjustmentSettings : AdjustmentSettings :=
  { autoAdjustEnabled := true
    adjustmentThreshold := .fin (15 / 100)
    consultationRequired := true
    maxAdjustmentPerCycle := .fin (20 / 100)
    learningRate := .fin (1 / 10) }

/-- The `efficiency` metrics block. -/
structure Efficiency where
  overallWasteRate : JsNum
  accuracyScore : JsNum
  adjustmentFrequency : JsNum
  satisfactionScore : JsNum
deriving DecidableEq, Repr

/-- The state of a `ConsumptionProfile`.  Identity fields, preferences,
sharing patterns, prediction-model stubs and the (never written) `monthly`
pattern map are irrelevant to every claim and omitted. -/
structure ConsumptionProfile where
  portionHistory : List ConsumptionRecord
  currentPortions : List (String × JsNum)
  wasteTracking : List (String × List JsNum)
  dailyPatterns : List (String × List DailyEntry)
  weeklyPatterns : List (String × List (String × List JsNum))
  seasonalPatterns : List (String × List (String × List JsNum))
  adjustmentSettings : AdjustmentSettings
  efficiency : Efficiency
  lastConsumptionUpdate : Option Date
  updatedAt : Option Date
deriving DecidableEq, Repr

/-- A fresh profile as the constructor creates it (no history, empty maps,
default settings, zeroed efficiency). -/
def emptyProfile : ConsumptionProfile :=
  { portionHistory := []
    currentPortions := []
    wasteTracking := []
    dailyPatterns := []
    weeklyPatterns := []
    seasonalPatterns := []
    adjustmentSettings := defaultAdjustmentSettings
    efficiency := { overallWasteRate := .fin 0, accuracyScore := .fin 0,
                    adjustmentFrequency := .fin 0, satisfactionScore := .fin 0 }
    lastConsumptionUpdate := none
    updatedAt := none }

/-- `getSeason(date)`: month 2–4 spring, 5–7 summer, 8–10 fall, else
winter. -/
def getSeason (d : Date) : String :=
  if 2 ≤ d.month ∧ d.month ≤ 4 then "spring"
  else if 5 ≤ d.month ∧ d.month ≤ 7 then "summer"
  else if 8 ≤ d.month ∧ d.month ≤ 10 then "fall"
  else "winter"

/-- `getWeekNumber(date)`; `jan1 y` is the `Date` for January 1st of year `y`
(the `new Date(year, 0, 1)` constructor, passed in since calendar
construction is outside the model). -/
def getWeekNumber (jan1 : ℤ → Date) (d : Date) : ℤ :=
  Rat.ceil ((((d.ms - (jan1 d.year).ms : ℤ) : ℚ) / 86400000 + ((jan1 d.year).dayOfWeek : ℚ) + 1) / 7)

/-- `updateConsumptionPatterns(record)`: appends the consumed amount to the
daily, weekly and seasonal pattern buckets. -/
def updateConsumptionPatterns (jan1 : ℤ → Date) (p : ConsumptionProfile)
    (r : ConsumptionRecord) : ConsumptionProfile :=
  let ts := r.timestamp
  let dailyKey := toString ts.year ++ "-" ++ toString ts.month ++ "-" ++ toString ts.dayOfMonth
  let dlist := (alistLookup p.dailyPatterns r.ingredient).getD []
  let p1 := { p with
    dailyPatterns := alistSet p.dailyPatterns r.ingredient
      (dlist ++ [({ date := dailyKey, amount := r.portionConsumed, timestamp := ts } : DailyEntry)]) }
  let weekKey := toString ts.year ++ "-W" ++ toString (getWeekNumber jan1 ts)
  let wmap := (alistLookup p1.weeklyPatterns r.ingredient).getD []
  let wlist := (alistLookup wmap weekKey).getD []
  let p2 := { p1 with
    weeklyPatterns := alistSet p1.weeklyPatterns r.ingredient
      (alistSet wmap weekKey (wlist ++ [r.portionConsumed])) }
  let season := getSeason ts
  let smap := (alistLookup p2.seasonalPatterns r.ingredient).getD []
  let slist := (alistLookup smap season).getD []
  { p2 with
    seasonalPatterns := alistSet p2.seasonalPatterns r.ingredient
      (alistSet smap season (slist ++ [r.portionConsumed])) }

/-- `calculateOverallWasteRate()`: arithmetic mean over all rolling-window
entries across all ingredients (0 when there are no records). -/
def calculateOverallWasteRate (p : ConsumptionProfile) : JsNum :=
  let totalWaste := p.wasteTracking.foldl (fun acc e => JsNum.add acc (sumJs e.2)) (.fin 0)
  let totalRecords := p.wasteTracking.foldl (fun (acc : ℕ) e => acc + e.2.length) 0
  if 0 < totalRecords then JsNum.div totalWaste (.fin totalRecords) else .fin 0

/-- `updateWasteTracking(ingredient, wastePercentage)`: push onto the
per-ingredient rolling window, evict the oldest entry when the window exceeds
30, and recompute the overall waste rate. -/
def updateWasteTracking (p : ConsumptionProfile) (ingredient : String)
    (wastePercentage : JsNum) : ConsumptionProfile :=
  let wasteHistory := (alistLookup p.wasteTracking ingredient).getD [] ++ [wastePercentage]
  let wasteHistory := if 30 < wasteHistory.length then wasteHistory.tail else wasteHistory
  let p1 := { p with wasteTracking := alistSet p.wasteTracking ingredient wasteHistory }
  { p1 with efficiency := { p1.efficiency with overallWasteRate := calculateOverallWasteRate p1 } }

/-- The JavaScript truthiness fallback `this.currentPortions.get(ingredient)
|| 100`: a missing, zero or `NaN` stored portion falls back to the default
`100` grams. -/
def portionOr100 (v : Option JsNum) : JsNum :=
  match v with
  | none => .fin 100
  | some x => if x = .fin 0 ∨ x = .nan then .fin 100 else x

/-- A `portion_adjustment_suggested` payload (the `reason` display string is
omitted). -/
structure Adjustment where
  ingredient : String
  currentPortion : JsNum
  suggestedPortion : JsNum
  reduction : JsNum
  reductionPercentage : JsNum
  requiresConsultation : Bool
  timestamp : Date
deriving DecidableEq, Repr

/-- `suggestPortionAdjustment(ingredient, averageWaste)`. -/
def suggestPortionAdjustment (p : ConsumptionProfile) (ingredient : String)
    (averageWaste : JsNum) (now : Date) : Adjustment :=
  let currentPortion := portionOr100 (alistLookup p.currentPortions ingredient)
  let wasteR := JsNum.div averageWaste (.fin 100)
  let adjustmentFactor :=
    JsNum.min (JsNum.sub (.fin 1) (JsNum.mul wasteR p.adjustmentSettings.learningRate))
      (JsNum.sub (.fin 1) p.adjustmentSettings.maxAdjustmentPerCycle)
  let suggestedPortion :=
    JsNum.max (JsNum.mul currentPortion adjustmentFactor)
      (JsNum.mul currentPortion (.fin (1 / 2)))
  { ingredient := ingredient
    currentPortion := currentPortion
    suggestedPortion := suggestedPortion
    reduction := JsNum.sub currentPortion suggestedPortion
    reductionPercentage :=
      JsNum.mul (JsNum.div (JsNum.sub currentPortion suggestedPortion) currentPortion) (.fin 100)
    requiresConsultation := p.adjustmentSettings.consultationRequired
    timestamp := now }

/-- `checkForPortionAdjustment(ingredient)`: with at least 5 rolling entries
and the mean of the most recent 5 above `threshold * 100`, produce (but do
not apply) a suggestion; otherwise nothing.  The suggestion is only logged,
so the profile state is unchanged. -/
def checkForPortionAdjustment (p : ConsumptionProfile) (ingredient : String)
    (now : Date) : Option Adjustment :=
  match alistLookup p.wasteTracking ingredient with
  | none => none
  | some wasteHistory =>
      if wasteHistory.length < 5 then none
      else
        let recentWaste := wasteHistory.drop (wasteHistory.length - 5)
        let averageWaste := jsMean recentWaste
        if JsNum.gt averageWaste
            (JsNum.mul p.adjustmentSettings.adjustmentThreshold (.fin 100)) then
          some (suggestPortionAdjustment p ingredient averageWaste now)
        else none

/-- The waste-percentage formula of `recordConsumption`:
`((portionServed - portionConsumed) / portionServed) * 100`, with no guard on
a zero `portionServed`. -/
def wastePct (portionServed portionConsumed : JsNum) : JsNum :=
  JsNum.mul (JsNum.div (JsNum.sub portionServed portionConsumed) portionServed) (.fin 100)

/-- `recordConsumption(ingredient, portionServed, portionConsumed,
timestamp)`: build the record (the waste percentage divides by
`portionServed` with no zero guard), append it to the history, update the
pattern maps and the rolling waste window, run the adjustment check (which
only logs), and stamp the update times. -/
def recordConsumption (jan1 : ℤ → Date) (p : ConsumptionProfile) (ingredient : String)
    (portionServed portionConsumed : JsNum) (ts : Date) :
    ConsumptionProfile × ConsumptionRecord :=
  let record : ConsumptionRecord :=
    { ingredient := ingredient
      portionServed := portionServed
      portionConsumed := portionConsumed
      wasteAmount := JsNum.sub portionServed portionConsumed
      wastePercentage := wastePct portionServed portionConsumed
      timestamp := ts
      dayOfWeek := ts.dayOfWeek
      timeOfDay := ts.hours
      season := getSeason ts }
  let p1 := { p with portionHistory := p.portionHistory ++ [record] }
  let p2 := updateConsumptionPatterns jan1 p1 record
  let p3 := updateWasteTracking p2 ingredient record.wastePercentage
  ({ p3 with lastConsumptionUpdate := some ts, updatedAt := some ts }, record)

/-- The error thrown by `applyPortionAdjustment` without approval. -/
inductive AdjustError
  | consultationRequired
deriving DecidableEq, Repr

/-- The `portion_adjustment_applied` payload. -/
structure AppliedAdjustment where
  ingredient : String
  oldPortion : JsNum
  newPortion : JsNum
  change : JsNum
  changePercentage : JsNum
  appliedAt : Date
  userApproved : Bool
deriving DecidableEq, Repr

/-- `applyPortionAdjustment(ingredient, newPortion, userApproved)`: throws
when consultation is required and not approved; otherwise overwrites the
current portion and returns the logged change. -/
def applyPortionAdjustment (p : ConsumptionProfile) (ingredient : String)
    (newPortion : JsNum) (userApproved : Bool) (now : Date) :
    Except AdjustError (ConsumptionProfile × AppliedAdjustment) :=
  let oldPortion := portionOr100 (alistLookup p.currentPortions ingredient)
  if p.adjustmentSettings.consultationRequired ∧ ¬userApproved then
    .error .consultationRequired
  else
    .ok ({ p with currentPortions := alistSet p.currentPortions ingredient newPortion,
                  updatedAt := some now },
         { ingredient := ingredient
           oldPortion := oldPortion
           newPortion := newPortion
           change := JsNum.sub newPortion oldPortion
           changePercentage :=
             JsNum.mul (JsNum.div (JsNum.sub newPortion oldPortion) oldPortion) (.fin 100)
           appliedAt := now
           userApproved := userApproved })

/-- Route-layer view of `applyPortionAdjustment`: a thrown error is caught
and the stored profile stays as it was (the throw precedes the write in the
source). -/
def tryApplyAdjustment (p : ConsumptionProfile) (ingredient : String)
    (newPortion : JsNum) (userApproved : Bool) (now : Date) : ConsumptionProfile :=
  match applyPortionAdjustment p ingredient newPortion userApproved now with
  | .ok r => r.1
  | .error _ => p

/-- `getHistoricalConsumption(ingredient, days)`: records for the ingredient
whose timestamp is within the last `days` days.  The source builds the
cutoff with calendar-day subtraction (`setDate(getDate() - days)`), modelled
here as millisecond subtraction. -/
def getHistoricalConsumption (p : ConsumptionProfile) (ingredient : String)
    (days : ℕ) (now : Date) : List ConsumptionRecord :=
  let cutoffMs := now.ms - days * 86400000
  p.portionHistory.filter
    (fun r => r.ingredient == ingredient && decide (cutoffMs ≤ r.timestamp.ms))

/-- Sum of `portionConsumed` over records, as a `reduce` with initial 0. -/
def sumConsumed (l : List ConsumptionRecord) : JsNum :=
  l.foldl (fun acc r => JsNum.add acc r.portionConsumed) (.fin 0)

/-- `getRecentAverageConsumption(ingredient, days)`. -/
def getRecentAverageConsumption (p : ConsumptionProfile) (ingredient : String)
    (days : ℕ) (now : Date) : JsNum :=
  let recentData := getHistoricalConsumption p ingredient days now
  if recentData.length = 0 then .fin 0
  else JsNum.div (sumConsumed recentData) (.fin recentData.length)

/-- `getDefaultPortion(ingredient)`: the constant lookup table with fallback
100 grams. -/
def getDefaultPortion (ingredient : String) : JsNum :=
  if ingredient = "lettuce" then .fin 80
  else if ingredient = "tomato" then .fin 120
  else if ingredient = "herbs" then .fin 15
  else if ingredient = "spinach" then .fin 100
  else if ingredient = "cucumber" then .fin 150
  else if ingredient = "carrot" then .fin 100
  else if ingredient = "onion" then .fin 80
  else if ingredient = "garlic" then .fin 10
  else .fin 100

/-- `getSeasonalMultiplier(ingredient, season)`. -/
def getSeasonalMultiplier (p : ConsumptionProfile) (ingredient season : String)
    (now : Date) : JsNum :=
  match alistLookup p.seasonalPatterns ingredient with
  | none => .fin 1
  | some smap =>
      match alistLookup smap season with
      | none => .fin 1
      | some seasonalConsumption =>
          let averageConsumption := jsMean seasonalConsumption
          let overallAverage := getRecentAverageConsumption p ingredient 365 now
          if JsNum.gt overallAverage (.fin 0) then
            JsNum.div averageConsumption overallAverage
          else .fin 1

/-- `getTrendMultiplier(ingredient)`: recent-30-day average over the average
of the 90-day history with its last 30 records removed (`slice(0, -30)` drops
the last 30 array elements). -/
def getTrendMultiplier (p : ConsumptionProfile) (ingredient : String) (now : Date) : JsNum :=
  let recentAverage := getRecentAverageConsumption p ingredient 30 now
  let older := (getHistoricalConsumption p ingredient 90 now).take
    ((getHistoricalConsumption p ingredient 90 now).length - 30)
  let olderAverage :=
    older.foldl (fun acc r => JsNum.add acc (JsNum.div r.portionConsumed (.fin older.length)))
      (.fin 0)
  if olderAverage = .fin 0 then .fin 1 else JsNum.div recentAverage olderAverage

/-- `calculateVariance(values)`. -/
def calculateVariance (values : List JsNum) : JsNum :=
  let mean := jsMean values
  JsNum.div
    (values.foldl (fun acc v => JsNum.add acc (JsNum.mul (JsNum.sub v mean) (JsNum.sub v mean)))
      (.fin 0))
    (.fin values.length)

/-- `calculatePredictionConfidence(ingredient, dataPoints)`; `sqrtFn` is the
`Math.sqrt` primitive, passed in since exact square roots are outside the
rational model (no claim depends on its value). -/
def calculatePredictionConfidence (sqrtFn : JsNum → JsNum) (p : ConsumptionProfile)
    (ingredient : String) (dataPoints : ℕ) (now : Date) : JsNum :=
  let confidence := JsNum.min (JsNum.div (.fin dataPoints) (.fin 30)) (.fin 1)
  let recentData := getHistoricalConsumption p ingredient 14 now
  let confidence :=
    if 1 < recentData.length then
      let variance := calculateVariance (recentData.map (fun r => r.portionConsumed))
      let mean := JsNum.div (sumConsumed recentData) (.fin recentData.length)
      let coefficientOfVariation := JsNum.div (sqrtFn variance) mean
      JsNum.mul confidence (JsNum.max (.fin (3 / 10)) (JsNum.sub (.fin 1) coefficientOfVariation))
    else confidence
  JsNum.max (.fin (1 / 10)) (JsNum.min (.fin (95 / 100)) confidence)

/-- The two result shapes of `predictDemand`: a bare number (no history) or
the structured prediction object. -/
inductive DemandPrediction
  | bare (n : JsNum)
  | structured (ingredient : String) (daysAhead : ℚ)
      (predictedDailyConsumption totalPredictedDemand confidence : JsNum)
      (historical seasonal trend : JsNum)
deriving DecidableEq, Repr

/-- `predictDemand(ingredient, daysAhead)`. -/
def predictDemand (sqrtFn : JsNum → JsNum) (p : ConsumptionProfile)
    (ingredient : String) (daysAhead : ℚ) (now : Date) : DemandPrediction :=
  let historicalData := getHistoricalConsumption p ingredient 30 now
  if historicalData.length = 0 then
    .bare (JsNum.mul (getDefaultPortion ingredient) (.fin daysAhead))
  else
    let averageDailyConsumption :=
      JsNum.div (sumConsumed historicalData) (.fin historicalData.length)
    let currentSeason := getSeason now
    let seasonalMultiplier := getSeasonalMultiplier p ingredient currentSeason now
    let trendMultiplier := getTrendMultiplier p ingredient now
    let predictedDemand :=
      JsNum.mul (JsNum.mul (JsNum.mul averageDailyConsumption (.fin daysAhead))
        seasonalMultiplier) trendMultiplier
    .structured ingredient daysAhead
      (JsNum.mul (JsNum.mul averageDailyConsumption seasonalMultiplier) trendMultiplier)
      predictedDemand
      (calculatePredictionConfidence sqrtFn p ingredient historicalData.length now)
      averageDailyConsumption seasonalMultiplier trendMultiplier

/-- One `POST` consumption-record request (the argument tuple of a
`recordConsumption` call). -/
structure ConsumptionEvent where
  ingredient : String
  portionServed : JsNum
  portionConsumed : JsNum
  timestamp : Date
deriving DecidableEq, Repr

/-- A sequence of `recordConsumption` calls applied to a profile. -/
def applyEvents (jan1 : ℤ → Date) (p : ConsumptionProfile) :
    List ConsumptionEvent → ConsumptionProfile
  | [] => p
  | e :: rest =>
      applyEvents jan1
        (recordConsumption jan1 p e.ingredient e.portionServed e.portionConsumed e.timestamp).1
        rest

/-- A concrete `Date` used as input to witness runs. -/
def d0 : Date :=
  { ms := 0, year := 2024, month := 5, dayOfMonth := 15, dayOfWeek := 3, hours := 12 }

/-- A concrete January-1st constructor used as input to witness runs. -/
def jan1def : ℤ → Date :=
  fun y => { ms := 0, year := y, month := 0, dayOfMonth := 1, dayOfWeek := 0, hours := 0 }

/-- A full 30-entry rolling waste window. -/
def window30 : List JsNum := List.replicate 30 (.fin 10)

/-- A profile whose lettuce window is already full (30 entries). -/
def profile30 : ConsumptionProfile :=
  { emptyProfile with wasteTracking := [("lettuce", window30)] }

/-- A profile with five waste-window entries of 300% for lettuce (produced by
serving 100 g and recording −200 g consumed five times — the source validates
neither input) and a current lettuce portion of 100 g. -/
def badWasteProfile : ConsumptionProfile :=
  { emptyProfile with
      currentPortions := [("lettuce", .fin 100)]
      wasteTracking := [("lettuce", [.fin 300, .fin 300, .fin 300, .fin 300, .fin 300])] }

/-- A profile holding exactly one recent consumption record for lettuce. -/
def oneRecordProfile : ConsumptionProfile :=
  (recordConsumption jan1def emptyProfile "lettuce" (.fin 100) (.fin 70) d0).1

end Consumption

/-! ## Helper lemmas: cooking-session state machine -/

namespace Cooking

@[simp] theorem recordPrevTiming_status (s : Session) (t : ℤ) :
    (recordPrevTiming s t).status = s.status := rfl

@[simp] theorem recordPrevTiming_currentStep (s : Session) (t : ℤ) :
    (recordPrevTiming s t).currentStep = s.currentStep := rfl

@[simp] theorem recordPrevTiming_recipe (s : Session) (t : ℤ) :
    (recordPrevTiming s t).recipe = s.recipe := rfl

theorem newPrevTimings_length (s : Session) (t : ℤ) :
    (newPrevTimings s t).length = s.stepTimings.length := by
  unfold newPrevTimings
  by_cases h : 0 < s.currentStep
  · rw [if_pos h]
    cases hg : s.stepTimings.get? (s.currentStep - 1) with
    | none => rfl
    | some st => simp [List.length_set]
  · rw [if_neg h]

theorem recordPrevTiming_length (s : Session) (t : ℤ) :
    (recordPrevTiming s t).stepTimings.length = s.stepTimings.length :=
  newPrevTimings_length s t

@[simp] theorem advanceState_status (s : Session) (t : ℤ) :
    (advanceState s t).status = s.status := rfl

@[simp] theorem advanceState_currentStep (s : Session) (t : ℤ) :
    (advanceState s t).currentStep = s.currentStep + 1 := rfl

@[simp] theorem advanceState_recipe (s : Session) (t : ℤ) :
    (advanceState s t).recipe = s.recipe := rfl

theorem advanceState_timings_length (s : Session) (t : ℤ)
    (hlen : s.stepTimings.length = s.currentStep) :
    (advanceState s t).stepTimings.length = s.currentStep + 1 := by
  have hl : (recordPrevTiming s t).stepTimings.length = s.currentStep := by
    rw [recordPrevTiming_length, hlen]
  show (setTiming (recordPrevTiming s t).stepTimings s.currentStep _).length = s.currentStep + 1
  unfold setTiming
  rw [if_neg (by rw [hl]; exact lt_irrefl _)]
  simp [hl]

@[simp] theorem complete_fst_status (s : Session) (t : ℤ) :
    (complete s t).1.status = .completed := rfl

@[simp] theorem complete_fst_currentStep (s : Session) (t : ℤ) :
    (complete s t).1.currentStep = s.currentStep := rfl

@[simp] theorem complete_summary_timings (s : Session) (t : ℤ) :
    (complete s t).2.stepTimings = s.stepTimings := rfl

theorem start_fails (s : Session) (t : ℤ) (h : s.status ≠ .initialized) :
    start s t = .error ⟨"Session already started or completed"⟩ := by
  unfold start; rw [if_pos h]

theorem pause_fails (s : Session) (t : ℤ) (h : s.status ≠ .inProgress) :
    pause s t = .error ⟨"Cannot pause session that is not in progress"⟩ := by
  unfold pause; rw [if_pos h]

theorem resume_fails (s : Session) (h : s.status ≠ .paused) :
    resume s = .error ⟨"Cannot resume session that is not paused"⟩ := by
  unfold resume; rw [if_pos h]

theorem nextStep_notInProgress (s : Session) (t : ℤ) (h : s.status ≠ .inProgress) :
    nextStep s t = .error ⟨"Cannot advance step when session is not in progress"⟩ := by
  unfold nextStep; rw [if_pos h]

theorem nextStep_completes (s : Session) (t : ℤ) (hst : s.status = .inProgress)
    (hge : s.recipe.length ≤ s.currentStep) :
    nextStep s t = .ok ((complete (recordPrevTiming s t) t).1,
      .completed (complete (recordPrevTiming s t) t).2) := by
  unfold nextStep
  rw [if_neg (by simp [hst]), if_pos hge]

theorem nextStep_advances (s : Session) (t : ℤ) (hst : s.status = .inProgress)
    (hlt : s.currentStep < s.recipe.length) :
    nextStep s t =
      .ok (advanceState s t, .stepInfo (getCurrentStepInfo (advanceState s t))) := by
  unfold nextStep
  rw [if_neg (by simp [hst]), if_neg (not_le.mpr hlt)]

theorem nextStep_progress (s : Session) (t : ℤ) (hst : s.status = .inProgress)
    (hlt : s.currentStep < s.recipe.length) (hlen : s.stepTimings.length = s.currentStep) :
    ∃ s2 info, nextStep s t = .ok (s2, .stepInfo info) ∧
      s2.status = .inProgress ∧ s2.currentStep = s.currentStep + 1 ∧
      s2.stepTimings.length = s.currentStep + 1 ∧ s2.recipe = s.recipe := by
  refine ⟨advanceState s t, getCurrentStepInfo (advanceState s t),
    nextStep_advances s t hst hlt, ?_, rfl, advanceState_timings_length s t hlen, rfl⟩
  rw [advanceState_status, hst]

theorem nextStep_complete_spec (s : Session) (t : ℤ) (hst : s.status = .inProgress)
    (hge : s.recipe.length ≤ s.currentStep) :
    ∃ s2 summary, nextStep s t = .ok (s2, .completed summary) ∧
      s2.status = .completed ∧ s2.currentStep = s.currentStep ∧
      summary.stepTimings.length = s.stepTimings.length := by
  refine ⟨_, _, nextStep_completes s t hst hge, rfl, rfl, ?_⟩
  rw [complete_summary_timings, recordPrevTiming_length]

theorem nextStepN_inv (times : ℕ → ℤ) (s : Session) (n : ℕ)
    (hst : s.status = .inProgress) (hcs : s.currentStep + n ≤ s.recipe.length)
    (hlen : s.stepTimings.length = s.currentStep) :
    ∃ s2, nextStepN times s n = .ok s2 ∧ s2.status = .inProgress ∧
      s2.currentStep = s.currentStep + n ∧ s2.stepTimings.length = s.currentStep + n ∧
      s2.recipe = s.recipe := by
  induction n with
  | zero => exact ⟨s, rfl, hst, by omega, by omega, rfl⟩
  | succ n ih =>
      obtain ⟨s2, h1, h2, h3, h4, h5⟩ := ih (by omega)
      have hlt : s2.currentStep < s2.recipe.length := by
        rw [h3, h5]; omega
      obtain ⟨s3, info, hn, hs3, hc3, hl3, hr3⟩ :=
        nextStep_progress s2 (times n) h2 hlt (by rw [h4, h3])
      refine ⟨s3, ?_, hs3, by omega, by omega, by rw [hr3, h5]⟩
      simp only [nextStepN, h1, hn]

theorem start_ok {s : Session} {t : ℤ} {s2 : Session} (h : start s t = .ok s2) :
    s.status = .initialized ∧ s2 = { s with status := .inProgress, startTime := some t } := by
  unfold start at h
  by_cases hs : s.status ≠ .initialized
  · rw [if_pos hs] at h; exact Except.noConfusion h
  · rw [if_neg hs] at h
    injection h with h2
    exact ⟨not_not.mp hs, h2.symm⟩

theorem pause_ok {s : Session} {t : ℤ} {s2 : Session} (h : pause s t = .ok s2) :
    s.status = .inProgress ∧ s2 = { s with status := .paused, pausedTime := t } := by
  unfold pause at h
  by_cases hs : s.status ≠ .inProgress
  · rw [if_pos hs] at h; exact Except.noConfusion h
  · rw [if_neg hs] at h
    injection h with h2
    exact ⟨not_not.mp hs, h2.symm⟩

theorem resume_ok {s : Session} {s2 : Session} (h : resume s = .ok s2) :
    s.status = .paused ∧ s2 = { s with status := .inProgress, pausedTime := 0 } := by
  unfold resume at h
  by_cases hs : s.status ≠ .paused
  · rw [if_pos hs] at h; exact Except.noConfusion h
  · rw [if_neg hs] at h
    injection h with h2
    exact ⟨not_not.mp hs, h2.symm⟩

theorem nextStep_ok_spec {s : Session} {t : ℤ} {r : Session × StepResult}
    (h : nextStep s t = .ok r) :
    s.status = .inProgress ∧ r.1.recipe = s.recipe ∧
    (r.1.currentStep = s.currentStep ∨
      (r.1.currentStep = s.currentStep + 1 ∧ s.currentStep < s.recipe.length)) := by
  unfold nextStep at h
  by_cases hs : s.status ≠ .inProgress
  · rw [if_pos hs] at h; exact Except.noConfusion h
  · rw [if_neg hs] at h
    by_cases hge : s.recipe.length ≤ s.currentStep
    · rw [if_pos hge] at h
      injection h with h2
      subst h2
      exact ⟨not_not.mp hs, rfl, Or.inl rfl⟩
    · rw [if_neg hge] at h
      injection h with h2
      subst h2
      exact ⟨not_not.mp hs, rfl, Or.inr ⟨rfl, not_le.mp hge⟩⟩

theorem applyOp_terminal (s : Session) (op : Op)
    (hterm : s.status = .completed ∨ s.status = .aborted) :
    (applyOp s op).currentStep = s.currentStep ∧
    (applyOp s op).status =
      (match op with | .abort _ _ => Status.aborted | _ => s.status) := by
  have hne1 : s.status ≠ .initialized := by rcases hterm with h | h <;> simp [h]
  have hne2 : s.status ≠ .inProgress := by rcases hterm with h | h <;> simp [h]
  have hne3 : s.status ≠ .paused := by rcases hterm with h | h <;> simp [h]
  cases op with
  | start t => simp [applyOp, start_fails s t hne1]
  | pause t => simp [applyOp, pause_fails s t hne2]
  | resume => simp [applyOp, resume_fails s hne3]
  | advanceStep t => simp [applyOp, nextStep_notInProgress s t hne2]
  | abort r t => exact ⟨rfl, rfl⟩
  | sensor a b c => exact ⟨rfl, rfl⟩
  | quality a b c => exact ⟨rfl, rfl⟩

theorem applyOp_preserve (s : Session) (op : Op) :
    (applyOp s op).recipe = s.recipe ∧
    ((applyOp s op).currentStep = s.currentStep ∨
      ((applyOp s op).currentStep = s.currentStep + 1 ∧ s.currentStep < s.recipe.length)) := by
  cases op with
  | start t =>
      cases h : start s t with
      | error e => simp [applyOp, h]
      | ok s2 =>
          obtain ⟨-, rfl⟩ := start_ok h
          simp [applyOp, h]
  | pause t =>
      cases h : pause s t with
      | error e => simp [applyOp, h]
      | ok s2 =>
          obtain ⟨-, rfl⟩ := pause_ok h
          simp [applyOp, h]
  | resume =>
      cases h : resume s with
      | error e => simp [applyOp, h]
      | ok s2 =>
          obtain ⟨-, rfl⟩ := resume_ok h
          simp [applyOp, h]
  | advanceStep t =>
      cases h : nextStep s t with
      | error e => simp [applyOp, h]
      | ok r =>
          obtain ⟨-, h2, h3⟩ := nextStep_ok_spec h
          simp only [applyOp, h]
          exact ⟨h2, h3⟩
  | abort reason t => simp [applyOp, abort]
  | sensor a b c => simp [applyOp, addSensorData]
  | quality a b c => simp [applyOp, updateQualityMetric]

theorem foldl_applyOp_bound (ops : List Op) (s : Session)
    (h : s.currentStep ≤ s.recipe.length) :
    (ops.foldl applyOp s).currentStep ≤ (ops.foldl applyOp s).recipe.length := by
  induction ops generalizing s with
  | nil => simpa using h
  | cons op rest ih =>
      rw [List.foldl_cons]
      apply ih
      obtain ⟨h1, h2⟩ := applyOp_preserve s op
      rw [h1]
      rcases h2 with h2 | ⟨h2, h3⟩
      · rw [h2]; exact h
      · rw [h2]; omega

/-- A concretely aborted session (terminal), used as a witness input. -/
def abortedSession : Session := abort (mkSession [⟨"a", some 5⟩]) "stop" 0

end Cooking

/-! ## Claims C1–C4: the cooking-session state machine -/

open Cooking in
/-- C1, counterexample: on a 1-step recipe, one `advanceStep()` call after
`start()` leaves the session InProgress (not Completed), and that call — the
one whose new step index (1) equals the instruction count — returns step
info, not the final summary.  So K calls do not complete a K-step session. -/
theorem claim_C1_counterexample :
    ∃ s1, start (mkSession [⟨"a", some 5⟩]) 0 = .ok s1 ∧
      (obsNext s1 1).2.status = Status.inProgress ∧
      (obsNext s1 1).2.currentStep = 1 ∧
      (obsNext s1 1).1 = Obs.step 1 1 ∧
      Status.inProgress ≠ Status.completed := by
  refine ⟨_, rfl, by decide, by decide, by decide, by decide⟩

open Cooking in
/-- C1, amended: for every recipe with K ≥ 1 instruction steps, calling
`advanceStep()` K times from the freshly started session leaves it InProgress
at step index K with K timing records; the (K+1)-th call — the one whose
pre-call step index equals the instruction count — transitions to Completed
and returns the final timing summary with exactly K timing records. -/
theorem claim_C1_amended (recipe : List Instruction) (times : ℕ → ℤ) (t0 tf : ℤ)
    (hK : 1 ≤ recipe.length) :
    ∃ s1 sK s2 summary,
      start (mkSession recipe) t0 = .ok s1 ∧
      nextStepN times s1 recipe.length = .ok sK ∧
      sK.status = Status.inProgress ∧ sK.currentStep = recipe.length ∧
      sK.stepTimings.length = recipe.length ∧
      nextStep sK tf = .ok (s2, .completed summary) ∧
      s2.status = Status.completed ∧ summary.stepTimings.length = recipe.length := by
  clear hK
  have hs1 : start (mkSession recipe) t0 =
      .ok { mkSession recipe with status := .inProgress, startTime := some t0 } := rfl
  obtain ⟨sK, h1, h2, h3, h4, h5⟩ :=
    nextStepN_inv times { mkSession recipe with status := .inProgress, startTime := some t0 }
      recipe.length rfl (by show 0 + recipe.length ≤ recipe.length; omega) rfl
  have h3' : sK.currentStep = recipe.length := by
    have h3'' : sK.currentStep = 0 + recipe.length := h3
    omega
  have h4' : sK.stepTimings.length = recipe.length := by
    have h4'' : sK.stepTimings.length = 0 + recipe.length := h4
    omega
  have h5' : sK.recipe = recipe := h5
  obtain ⟨s2, summary, hc1, hc2, hc3, hc4⟩ :=
    nextStep_complete_spec sK tf h2 (by rw [h5', h3'])
  exact ⟨_, sK, s2, summary, hs1, h1, h2, h3', h4', hc1, hc2, by rw [hc4, h4']⟩

open Cooking in
/-- C1 amended, witness: concrete 1-step recipe, all call times 0. -/
theorem claim_C1_amended_witness :
    1 ≤ ([⟨"a", some 5⟩] : List Instruction).length ∧
    (∃ s1 sK s2 summary,
      start (mkSession [⟨"a", some 5⟩]) 0 = .ok s1 ∧
      nextStepN (fun _ => 0) s1 ([⟨"a", some 5⟩] : List Instruction).length = .ok sK ∧
      sK.status = Status.inProgress ∧
      sK.currentStep = ([⟨"a", some 5⟩] : List Instruction).length ∧
      sK.stepTimings.length = ([⟨"a", some 5⟩] : List Instruction).length ∧
      nextStep sK 0 = .ok (s2, .completed summary) ∧
      s2.status = Status.completed ∧
      summary.stepTimings.length = ([⟨"a", some 5⟩] : List Instruction).length) :=
  ⟨by decide, claim_C1_amended [⟨"a", some 5⟩] (fun _ => 0) 0 0 (by decide)⟩

open Cooking in
/-- C2, counterexample: a session driven to Completed is still mutated by
`abort()` — its state changes from Completed to Aborted, so a terminal state
does not exclude further state mutation. -/
theorem claim_C2_counterexample :
    ∃ s1, start (mkSession [⟨"a", some 5⟩]) 0 = .ok s1 ∧
      (obsNext (obsNext s1 1).2 2).2.status = Status.completed ∧
      (abort (obsNext (obsNext s1 1).2 2).2 "user abort" 3).status = Status.aborted ∧
      Status.completed ≠ Status.aborted := by
  refine ⟨_, rfl, by decide, by decide, by decide⟩

open Cooking in
/-- C2, amended: the step index never exceeds `instructions.length` (under
any operation and any operation sequence, the recipe being immutable), and in
a terminal state (Completed or Aborted) no operation changes the step index
and no operation other than `abort` changes the state — but `abort` is
unguarded and sets the state to Aborted even from Completed. -/
theorem claim_C2_amended (s : Session) (op : Op) (ops : List Op)
    (hbound : s.currentStep ≤ s.recipe.length) :
    (applyOp s op).recipe = s.recipe ∧
    (applyOp s op).currentStep ≤ s.recipe.length ∧
    (ops.foldl applyOp s).currentStep ≤ (ops.foldl applyOp s).recipe.length ∧
    ((s.status = Status.completed ∨ s.status = Status.aborted) →
      (applyOp s op).currentStep = s.currentStep ∧
      (applyOp s op).status =
        (match op with | .abort _ _ => Status.aborted | _ => s.status)) := by
  obtain ⟨h1, h2⟩ := applyOp_preserve s op
  refine ⟨h1, ?_, foldl_applyOp_bound ops s hbound, fun ht => applyOp_terminal s op ht⟩
  rcases h2 with h2 | ⟨h2, h3⟩
  · rw [h2]; exact hbound
  · rw [h2]; omega

open Cooking in
/-- C2 amended, witness: an aborted session, hit with `pause`. -/
theorem claim_C2_amended_witness :
    abortedSession.currentStep ≤ abortedSession.recipe.length ∧
    (applyOp abortedSession (.pause 1)).currentStep = abortedSession.currentStep ∧
    (applyOp abortedSession (.pause 1)).status = abortedSession.status := by
  have h := claim_C2_amended abortedSession (.pause 1) [] (by decide)
  have ht := h.2.2.2 (Or.inr (by decide))
  exact ⟨by decide, ht.1, ht.2⟩

open Cooking in
/-- C3: `start`/`pause`/`resume`/`advanceStep` fail with a
`CookingProcessError` exactly when called outside their legal source state
(Initialized, InProgress, Paused, InProgress respectively), and a failed
call leaves the session completely unchanged. -/
theorem claim_C3 (s : Session) (t : ℤ) :
    ((∃ e, start s t = .error e) ↔ s.status ≠ Status.initialized) ∧
    ((∃ e, pause s t = .error e) ↔ s.status ≠ Status.inProgress) ∧
    ((∃ e, resume s = .error e) ↔ s.status ≠ Status.paused) ∧
    ((∃ e, nextStep s t = .error e) ↔ s.status ≠ Status.inProgress) ∧
    (s.status ≠ Status.initialized → applyOp s (.start t) = s) ∧
    (s.status ≠ Status.inProgress → applyOp s (.pause t) = s) ∧
    (s.status ≠ Status.paused → applyOp s .resume = s) ∧
    (s.status ≠ Status.inProgress → applyOp s (.advanceStep t) = s) := by
  refine ⟨?_, ?_, ?_, ?_, ?_, ?_, ?_, ?_⟩
  · by_cases h : s.status = Status.initialized <;> simp [start, h]
  · by_cases h : s.status = Status.inProgress <;> simp [pause, h]
  · by_cases h : s.status = Status.paused <;> simp [resume, h]
  · by_cases h : s.status = Status.inProgress
    · constructor
      · rintro ⟨e, he⟩
        by_cases hge : s.recipe.length ≤ s.currentStep
        · rw [nextStep_completes s t h hge] at he; exact Except.noConfusion he
        · rw [nextStep_advances s t h (not_le.mp hge)] at he; exact Except.noConfusion he
      · intro hne; exact absurd h hne
    · exact ⟨fun _ => h, fun _ => ⟨_, nextStep_notInProgress s t h⟩⟩
  · intro h; simp [applyOp, start_fails s t h]
  · intro h; simp [applyOp, pause_fails s t h]
  · intro h; simp [applyOp, resume_fails s h]
  · intro h; simp [applyOp, nextStep_notInProgress s t h]

open Cooking in
/-- C3, witness: `pause()` on a freshly initialized session fails and leaves
the session unchanged (the spec scenario). -/
theorem claim_C3_witness :
    (mkSession [⟨"a", some 5⟩]).status ≠ Status.inProgress ∧
    (∃ e, pause (mkSession [⟨"a", some 5⟩]) 0 = .error e) ∧
    applyOp (mkSession [⟨"a", some 5⟩]) (.pause 0) = mkSession [⟨"a", some 5⟩] :=
  ⟨by decide,
   (claim_C3 (mkSession [⟨"a", some 5⟩]) 0).2.1.mpr (by decide),
   (claim_C3 (mkSession [⟨"a", some 5⟩]) 0).2.2.2.2.2.1 (by decide)⟩

open Cooking in
/-- C4: on the recipe `[{step:"a", timing:5},{step:"b", timing:10}]`, after
`start()` the first `advanceStep()` returns step-1 info, the second step-2
info, the third the Completed summary with exactly 2 timing records, and a
fourth call fails (leaving the session unchanged) rather than recounting. -/
theorem claim_C4 :
    ∃ s1, start (mkSession recipeAB) 0 = .ok s1 ∧
      (obsNext s1 1).1 = Obs.step 1 2 ∧
      (obsNext (obsNext s1 1).2 2).1 = Obs.step 2 2 ∧
      (obsNext (obsNext (obsNext s1 1).2 2).2 3).1 = Obs.done 2 ∧
      (obsNext (obsNext (obsNext s1 1).2 2).2 3).2.status = Status.completed ∧
      (obsNext (obsNext (obsNext (obsNext s1 1).2 2).2 3).2 4).1 = Obs.err ∧
      (obsNext (obsNext (obsNext (obsNext s1 1).2 2).2 3).2 4).2 =
        (obsNext (obsNext (obsNext s1 1).2 2).2 3).2 := by
  refine ⟨_, rfl, by decide, by decide, by decide, by decide, by decide, rfl⟩

/-! ## Helper lemmas: JsNum arithmetic and the consumption model -/

namespace Consumption

@[simp] theorem JsNum.add_fin (a b : ℚ) : JsNum.add (.fin a) (.fin b) = .fin (a + b) := rfl

@[simp] theorem JsNum.sub_fin (a b : ℚ) : JsNum.sub (.fin a) (.fin b) = .fin (a - b) := by
  show JsNum.add (.fin a) (.fin (-b)) = .fin (a - b)
  rw [JsNum.add_fin, sub_eq_add_neg]

@[simp] theorem JsNum.mul_fin (a b : ℚ) : JsNum.mul (.fin a) (.fin b) = .fin (a * b) := rfl

@[simp] theorem JsNum.div_fin (a : ℚ) {b : ℚ} (h : b ≠ 0) :
    JsNum.div (.fin a) (.fin b) = .fin (a / b) := by
  simp [JsNum.div, h]

@[simp] theorem JsNum.lt_fin (a b : ℚ) : JsNum.lt (.fin a) (.fin b) = decide (a < b) := rfl

@[simp] theorem JsNum.gt_fin (a b : ℚ) : JsNum.gt (.fin a) (.fin b) = decide (b < a) := rfl

@[simp] theorem JsNum.min_fin (a b : ℚ) :
    JsNum.min (.fin a) (.fin b) = .fin (Min.min a b) := by
  by_cases h : a < b
  · simp [JsNum.min, JsNum.lt, h, min_eq_left h.le]
  · simp [JsNum.min, JsNum.lt, h, min_eq_right (le_of_not_lt h)]

@[simp] theorem JsNum.max_fin (a b : ℚ) :
    JsNum.max (.fin a) (.fin b) = .fin (Max.max a b) := by
  by_cases h : a < b
  · simp [JsNum.max, JsNum.lt, h, max_eq_right h.le]
  · simp [JsNum.max, JsNum.lt, h, max_eq_left (le_of_not_lt h)]

theorem JsNum.isFinite_add (a b : JsNum) :
    (JsNum.add a b).isFinite = (a.isFinite && b.isFinite) := by
  cases a <;> cases b <;> rfl

theorem JsNum.isFinite_div_zero (a : JsNum) : (JsNum.div a (.fin 0)).isFinite = false := by
  cases a with
  | nan => rfl
  | inf => rfl
  | ninf => rfl
  | fin q =>
      simp only [JsNum.div]
      rw [if_pos trivial]
      split_ifs <;> rfl

theorem JsNum.isFinite_mul_fin (a : JsNum) (q : ℚ) (h : a.isFinite = false) :
    (JsNum.mul a (.fin q)).isFinite = false := by
  cases a with
  | fin x => simp [JsNum.isFinite] at h
  | nan => rfl
  | inf => simp only [JsNum.mul]; split_ifs <;> rfl
  | ninf => simp only [JsNum.mul]; split_ifs <;> rfl

theorem JsNum.isFinite_div_fin (a : JsNum) (q : ℚ) (h : a.isFinite = false) :
    (JsNum.div a (.fin q)).isFinite = false := by
  cases a with
  | fin x => simp [JsNum.isFinite] at h
  | nan => rfl
  | inf => simp only [JsNum.div]; split_ifs <;> rfl
  | ninf => simp only [JsNum.div]; split_ifs <;> rfl

theorem foldl_add_finite (l : List JsNum) (init : JsNum)
    (h : (l.foldl JsNum.add init).isFinite = true) :
    init.isFinite = true ∧ ∀ x ∈ l, x.isFinite = true := by
  induction l generalizing init with
  | nil => exact ⟨h, by simp⟩
  | cons y ys ih =>
      rw [List.foldl_cons] at h
      obtain ⟨h1, h2⟩ := ih (JsNum.add init y) h
      rw [JsNum.isFinite_add, Bool.and_eq_true] at h1
      refine ⟨h1.1, ?_⟩
      intro x hx
      rcases List.mem_cons.mp hx with rfl | hx
      · exact h1.2
      · exact h2 x hx

theorem sumJs_nonfinite {l : List JsNum} {x : JsNum} (hx : x ∈ l) (h : x.isFinite = false) :
    (sumJs l).isFinite = false := by
  cases hb : (sumJs l).isFinite with
  | false => rfl
  | true =>
      have := (foldl_add_finite l (.fin 0) hb).2 x hx
      rw [h] at this
      exact Bool.noConfusion this

theorem foldl_entries_finite (L : List (String × List JsNum)) (init : JsNum)
    (h : (L.foldl (fun acc e => JsNum.add acc (sumJs e.2)) init).isFinite = true) :
    init.isFinite = true ∧ ∀ e ∈ L, (sumJs e.2).isFinite = true := by
  induction L generalizing init with
  | nil => exact ⟨h, by simp⟩
  | cons y ys ih =>
      rw [List.foldl_cons] at h
      obtain ⟨h1, h2⟩ := ih _ h
      rw [JsNum.isFinite_add, Bool.and_eq_true] at h1
      refine ⟨h1.1, ?_⟩
      intro e he
      rcases List.mem_cons.mp he with rfl | he
      · exact h1.2
      · exact h2 e he

theorem foldl_len_ge (L : List (String × List JsNum)) (init : ℕ) :
    init ≤ L.foldl (fun acc e => acc + e.2.length) init := by
  induction L generalizing init with
  | nil => simp
  | cons y ys ih =>
      rw [List.foldl_cons]
      exact le_trans (Nat.le_add_right _ _) (ih _)

theorem foldl_len_ge_mem (L : List (String × List JsNum)) (init : ℕ)
    (e : String × List JsNum) (he : e ∈ L) :
    e.2.length ≤ L.foldl (fun acc x => acc + x.2.length) init := by
  induction L generalizing init with
  | nil => cases he
  | cons y ys ih =>
      rw [List.foldl_cons]
      rcases List.mem_cons.mp he with rfl | he
      · exact le_trans (Nat.le_add_left _ _) (foldl_len_ge ys _)
      · exact ih _ he

theorem alistLookup_set_self {α : Type} (l : List (String × α)) (k : String) (v : α) :
    alistLookup (alistSet l k v) k = some v := by
  induction l with
  | nil => simp [alistSet, alistLookup]
  | cons y ys ih =>
      obtain ⟨k0, v0⟩ := y
      by_cases h : k0 = k
      · simp [alistSet, alistLookup, h]
      · simp [alistSet, alistLookup, h, ih]

theorem alistSet_mem_cases {α : Type} {l : List (String × α)} {k : String} {v : α}
    {e : String × α} (he : e ∈ alistSet l k v) : e ∈ l ∨ e = (k, v) := by
  induction l with
  | nil =>
      simp [alistSet] at he
      exact Or.inr he
  | cons y ys ih =>
      obtain ⟨k0, v0⟩ := y
      by_cases h : k0 = k
      · simp [alistSet, h] at he
        rcases he with rfl | he
        · exact Or.inr rfl
        · exact Or.inl (List.mem_cons_of_mem _ he)
      · simp [alistSet, h] at he
        rcases he with rfl | he
        · exact Or.inl (List.mem_cons_self _ _)
        · rcases ih he with h2 | h2
          · exact Or.inl (List.mem_cons_of_mem _ h2)
          · exact Or.inr h2

theorem alistSet_self_mem {α : Type} (l : List (String × α)) (k : String) (v : α) :
    (k, v) ∈ alistSet l k v := by
  induction l with
  | nil => simp [alistSet]
  | cons y ys ih =>
      obtain ⟨k0, v0⟩ := y
      by_cases h : k0 = k <;> simp [alistSet, h, ih]

theorem alistLookup_mem {α : Type} {l : List (String × α)} {k : String} {v : α}
    (h : alistLookup l k = some v) : (k, v) ∈ l := by
  induction l with
  | nil => simp [alistLookup] at h
  | cons y ys ih =>
      obtain ⟨k0, v0⟩ := y
      by_cases hk : k0 = k
      · simp [alistLookup, hk] at h
        subst hk
        subst h
        exact List.mem_cons_self _ _
      · simp [alistLookup, hk] at h
        exact List.mem_cons_of_mem _ (ih h)

theorem recordConsumption_snd (jan1 : ℤ → Date) (p : ConsumptionProfile) (ing : String)
    (s c : JsNum) (ts : Date) :
    (recordConsumption jan1 p ing s c ts).2 =
      { ingredient := ing, portionServed := s, portionConsumed := c,
        wasteAmount := JsNum.sub s c, wastePercentage := wastePct s c,
        timestamp := ts, dayOfWeek := ts.dayOfWeek, timeOfDay := ts.hours,
        season := getSeason ts } := rfl

theorem recordConsumption_portionHistory (jan1 : ℤ → Date) (p : ConsumptionProfile)
    (ing : String) (s c : JsNum) (ts : Date) :
    (recordConsumption jan1 p ing s c ts).1.portionHistory =
      p.portionHistory ++ [(recordConsumption jan1 p ing s c ts).2] := rfl

theorem recordConsumption_wasteTracking (jan1 : ℤ → Date) (p : ConsumptionProfile)
    (ing : String) (s c : JsNum) (ts : Date) :
    (recordConsumption jan1 p ing s c ts).1.wasteTracking =
      alistSet p.wasteTracking ing
        (if 30 < ((alistLookup p.wasteTracking ing).getD [] ++ [wastePct s c]).length
         then ((alistLookup p.wasteTracking ing).getD [] ++ [wastePct s c]).tail
         else (alistLookup p.wasteTracking ing).getD [] ++ [wastePct s c]) := rfl

theorem recordConsumption_rate (jan1 : ℤ → Date) (p : ConsumptionProfile)
    (ing : String) (s c : JsNum) (ts : Date) :
    (recordConsumption jan1 p ing s c ts).1.efficiency.overallWasteRate =
      calculateOverallWasteRate (recordConsumption jan1 p ing s c ts).1 := rfl

theorem mem_trimmed (old : List JsNum) (pct : JsNum) :
    pct ∈ (if 30 < (old ++ [pct]).length then (old ++ [pct]).tail else old ++ [pct]) := by
  split_ifs with h
  · cases old with
    | nil => simp at h
    | cons y ys => simp
  · simp

theorem getLast_trimmed (old : List JsNum) (pct : JsNum) :
    (if 30 < (old ++ [pct]).length
     then (old ++ [pct]).tail else old ++ [pct]).getLast? = some pct := by
  split_ifs with h
  · cases old with
    | nil => simp at h
    | cons y ys => simp [List.getLast?_concat]
  · simp [List.getLast?_concat]

theorem trimmed_length_le (old : List JsNum) (pct : JsNum) (h : old.length ≤ 30) :
    (if 30 < (old ++ [pct]).length
     then (old ++ [pct]).tail else old ++ [pct]).length ≤ 30 := by
  split_ifs with h30
  · simp only [List.length_tail, List.length_append, List.length_singleton]
    omega
  · simp only [List.length_append, List.length_singleton] at h30 ⊢
    omega

theorem calcRate_nonfinite {p : ConsumptionProfile} {e : String × List JsNum}
    (he : e ∈ p.wasteTracking) {x : JsNum} (hx : x ∈ e.2) (hfx : x.isFinite = false) :
    (calculateOverallWasteRate p).isFinite = false := by
  have hsum : (sumJs e.2).isFinite = false := sumJs_nonfinite hx hfx
  have htot :
      ((p.wasteTracking.foldl (fun acc e => JsNum.add acc (sumJs e.2)) (.fin 0))).isFinite
        = false := by
    cases hb : (p.wasteTracking.foldl (fun acc e => JsNum.add acc (sumJs e.2)) (.fin 0)).isFinite with
    | false => rfl
    | true =>
        have := (foldl_entries_finite p.wasteTracking (.fin 0) hb).2 e he
        rw [hsum] at this
        exact Bool.noConfusion this
  have hrec : 0 < p.wasteTracking.foldl (fun (acc : ℕ) e => acc + e.2.length) 0 := by
    have h1 := foldl_len_ge_mem p.wasteTracking 0 e he
    have h2 : 0 < e.2.length := List.length_pos.mpr (List.ne_nil_of_mem hx)
    omega
  simp only [calculateOverallWasteRate]
  rw [if_pos hrec]
  exact JsNum.isFinite_div_fin _ _ htot

theorem record_window_bound (jan1 : ℤ → Date) (p : ConsumptionProfile) (ing : String)
    (s c : JsNum) (ts : Date) (h : ∀ e ∈ p.wasteTracking, e.2.length ≤ 30) :
    ∀ e ∈ (recordConsumption jan1 p ing s c ts).1.wasteTracking, e.2.length ≤ 30 := by
  intro e he
  rw [recordConsumption_wasteTracking] at he
  rcases alistSet_mem_cases he with he | rfl
  · exact h e he
  · refine trimmed_length_le _ _ ?_
    cases hl : alistLookup p.wasteTracking ing with
    | none => simp
    | some w =>
        simpa using h (ing, w) (alistLookup_mem hl)

theorem applyEvents_window_bound (jan1 : ℤ → Date) (events : List ConsumptionEvent)
    (p : ConsumptionProfile) (h : ∀ e ∈ p.wasteTracking, e.2.length ≤ 30) :
    ∀ e ∈ (applyEvents jan1 p events).wasteTracking, e.2.length ≤ 30 := by
  induction events generalizing p with
  | nil => exact h
  | cons ev evs ih =>
      exact ih _
        (record_window_bound jan1 p ev.ingredient ev.portionServed ev.portionConsumed
          ev.timestamp h)

end Consumption

/-! ## Claims C5–C10: the consumption waste tracker -/

open Consumption in
/-- C5: after any sequence of `recordConsumption` calls each per-ingredient
rolling waste window holds at most 30 entries, and when a record arrives for
an ingredient whose window already holds 30 entries the oldest entry is
evicted first (the new window is the old window's tail plus the new
percentage — FIFO). -/
theorem claim_C5 (jan1 : ℤ → Date) (p : ConsumptionProfile)
    (events : List ConsumptionEvent) (ing : String) (s c : JsNum) (ts : Date)
    (h : ∀ e ∈ p.wasteTracking, e.2.length ≤ 30) :
    (∀ e ∈ (applyEvents jan1 p events).wasteTracking, e.2.length ≤ 30) ∧
    (((alistLookup p.wasteTracking ing).getD []).length = 30 →
      alistLookup (recordConsumption jan1 p ing s c ts).1.wasteTracking ing =
        some (((alistLookup p.wasteTracking ing).getD []).tail ++ [wastePct s c])) := by
  refine ⟨applyEvents_window_bound jan1 events p h, fun h30 => ?_⟩
  rw [recordConsumption_wasteTracking, alistLookup_set_self]
  rw [if_pos (by simp [h30])]
  rcases hO : (alistLookup p.wasteTracking ing).getD [] with _ | ⟨y, ys⟩
  · rw [hO] at h30
    simp at h30
  · simp

open Consumption in
/-- C5, witness: a profile whose lettuce window is already full with 30
entries; one more record evicts the oldest entry. -/
theorem claim_C5_witness :
    (∀ e ∈ profile30.wasteTracking, e.2.length ≤ 30) ∧
    ((alistLookup profile30.wasteTracking "lettuce").getD []).length = 30 ∧
    alistLookup
        (recordConsumption jan1def profile30 "lettuce" (.fin 100) (.fin 70) d0).1.wasteTracking
        "lettuce" =
      some (((alistLookup profile30.wasteTracking "lettuce").getD []).tail ++
        [wastePct (.fin 100) (.fin 70)]) := by
  have hb : ∀ e ∈ profile30.wasteTracking, e.2.length ≤ 30 := by decide
  have h30 : ((alistLookup profile30.wasteTracking "lettuce").getD []).length = 30 := by decide
  exact ⟨hb, h30,
    (claim_C5 jan1def profile30 [] "lettuce" (.fin 100) (.fin 70) d0 hb).2 h30⟩

open Consumption in
/-- C6: on a profile requiring consultation, `applyPortionAdjustment` with
`userApproved = false` always fails with the consultation error and the
stored portion is unchanged; with approval (or when consultation is not
required) it overwrites the current portion and logs old value, new value,
delta and timestamp. -/
theorem claim_C6 (p : ConsumptionProfile) (ing : String) (np : JsNum)
    (approved : Bool) (now : Date) :
    (p.adjustmentSettings.consultationRequired = true →
      applyPortionAdjustment p ing np false now = .error .consultationRequired ∧
      tryApplyAdjustment p ing np false now = p) ∧
    ((p.adjustmentSettings.consultationRequired = false ∨ approved = true) →
      ∃ p2 adj, applyPortionAdjustment p ing np approved now = .ok (p2, adj) ∧
        alistLookup p2.currentPortions ing = some np ∧
        adj.oldPortion = portionOr100 (alistLookup p.currentPortions ing) ∧
        adj.newPortion = np ∧
        adj.change = JsNum.sub np (portionOr100 (alistLookup p.currentPortions ing)) ∧
        adj.appliedAt = now) := by
  constructor
  · intro h
    have heq : applyPortionAdjustment p ing np false now = .error .consultationRequired := by
      unfold applyPortionAdjustment
      rw [if_pos ⟨h, by simp⟩]
    refine ⟨heq, ?_⟩
    unfold tryApplyAdjustment
    rw [heq]
  · intro h
    have hcond : ¬(p.adjustmentSettings.consultationRequired = true ∧ ¬(approved = true)) := by
      rcases h with h | h <;> simp [h]
    have heq : applyPortionAdjustment p ing np approved now =
        .ok ({ p with currentPortions := alistSet p.currentPortions ing np,
                      updatedAt := some now },
             { ingredient := ing,
               oldPortion := portionOr100 (alistLookup p.currentPortions ing),
               newPortion := np,
               change := JsNum.sub np (portionOr100 (alistLookup p.currentPortions ing)),
               changePercentage :=
                 JsNum.mul
                   (JsNum.div (JsNum.sub np (portionOr100 (alistLookup p.currentPortions ing)))
                     (portionOr100 (alistLookup p.currentPortions ing))) (.fin 100),
               appliedAt := now, userApproved := approved }) := by
      unfold applyPortionAdjustment
      rw [if_neg hcond]
    exact ⟨_, _, heq, alistLookup_set_self _ _ _, rfl, rfl, rfl, rfl⟩

open Consumption in
/-- C6, witness: the default profile requires consultation — an unapproved
adjustment fails and changes nothing; an approved one is applied. -/
theorem claim_C6_witness :
    emptyProfile.adjustmentSettings.consultationRequired = true ∧
    (applyPortionAdjustment emptyProfile "lettuce" (.fin 90) false d0 =
        .error .consultationRequired ∧
      tryApplyAdjustment emptyProfile "lettuce" (.fin 90) false d0 = emptyProfile) ∧
    (∃ p2 adj, applyPortionAdjustment emptyProfile "lettuce" (.fin 90) true d0 = .ok (p2, adj) ∧
      alistLookup p2.currentPortions "lettuce" = some (.fin 90) ∧
      adj.oldPortion = portionOr100 (alistLookup emptyProfile.currentPortions "lettuce") ∧
      adj.newPortion = .fin 90 ∧
      adj.change = JsNum.sub (.fin 90) (portionOr100 (alistLookup emptyProfile.currentPortions "lettuce")) ∧
      adj.appliedAt = d0) :=
  ⟨rfl, (claim_C6 emptyProfile "lettuce" (.fin 90) false d0).1 rfl,
    (claim_C6 emptyProfile "lettuce" (.fin 90) true d0).2 (Or.inr rfl)⟩

open Consumption in
/-- C7: for finite inputs with `portionServed ≠ 0`, the stored waste
percentage is exactly `(served − consumed) / served × 100`, with no clamping:
consuming more than a (positive) served portion yields a negative waste
percentage. -/
theorem claim_C7 (jan1 : ℤ → Date) (p : ConsumptionProfile) (ing : String)
    (s c : ℚ) (hs : s ≠ 0) (ts : Date) :
    (recordConsumption jan1 p ing (.fin s) (.fin c) ts).2.wastePercentage =
      .fin ((s - c) / s * 100) ∧
    (0 < s → s < c → (s - c) / s * 100 < 0) := by
  constructor
  · show wastePct (.fin s) (.fin c) = _
    unfold wastePct
    rw [JsNum.sub_fin, JsNum.div_fin _ hs, JsNum.mul_fin]
  · intro hpos hlt
    have h1 : (s - c) / s < 0 := div_neg_of_neg_of_pos (by linarith) hpos
    have h100 : (0:ℚ) < 100 := by norm_num
    exact mul_neg_of_neg_of_pos h1 h100

open Consumption in
/-- C7, witness: serving 100 and consuming 150 records waste percentage
`(100−150)/100×100 = −50` — negative, unclamped. -/
theorem claim_C7_witness :
    ((100 : ℚ) ≠ 0) ∧
    ((recordConsumption jan1def emptyProfile "lettuce" (.fin 100) (.fin 150) d0).2.wastePercentage =
        .fin ((100 - 150) / 100 * 100) ∧
      (0 < (100:ℚ) → (100:ℚ) < 150 → (100 - 150) / 100 * 100 < (0:ℚ))) :=
  ⟨by norm_num, claim_C7 jan1def emptyProfile "lettuce" 100 150 (by norm_num) d0⟩

open Consumption in
/-- C8, exhibit of the code bug: with default settings and a 100 g current
portion, five rolling entries of 300% waste (possible since inputs are
unvalidated) trigger a suggestion whose reduction is 30 g — strictly more
than `maxAdjustmentPerCycle × currentPortion = 20 g`, because the source
takes `Math.min(1 − wasteRatio·learningRate, 1 − maxAdjustmentPerCycle)`,
making the configured maximum act as a floor on the reduction instead of the
cap its own comment ("max 20% change per adjustment") states. -/
theorem claim_C8_bug :
    ∃ adj, checkForPortionAdjustment badWasteProfile "lettuce" d0 = some adj ∧
      adj.currentPortion = .fin 100 ∧
      adj.suggestedPortion = .fin 70 ∧
      adj.reduction = .fin 30 ∧
      JsNum.gt adj.reduction
        (JsNum.mul badWasteProfile.adjustmentSettings.maxAdjustmentPerCycle
          adj.currentPortion) = true := by
  have havg : jsMean [JsNum.fin 300, .fin 300, .fin 300, .fin 300, .fin 300] = .fin 300 := by
    norm_num [jsMean, sumJs, JsNum.div_fin]
  have hcheck : checkForPortionAdjustment badWasteProfile "lettuce" d0 =
      some (suggestPortionAdjustment badWasteProfile "lettuce" (.fin 300) d0) := by
    rw [checkForPortionAdjustment]
    norm_num [badWasteProfile, emptyProfile, alistLookup, defaultAdjustmentSettings, havg]
  have hsugg : suggestPortionAdjustment badWasteProfile "lettuce" (.fin 300) d0 =
      { ingredient := "lettuce", currentPortion := .fin 100, suggestedPortion := .fin 70,
        reduction := .fin 30, reductionPercentage := .fin 30,
        requiresConsultation := true, timestamp := d0 } := by
    rw [suggestPortionAdjustment]
    norm_num [badWasteProfile, emptyProfile, alistLookup, defaultAdjustmentSettings,
      portionOr100, JsNum.div_fin, min_def, max_def]
  refine ⟨_, hcheck, ?_, ?_, ?_, ?_⟩ <;> rw [hsugg] <;> norm_num [badWasteProfile,
    emptyProfile, defaultAdjustmentSettings]

open Consumption in
/-- C9: `recordConsumption` with `portionServed = 0` raises no error: the
record is built with a non-finite waste percentage (division by zero), is
appended to the portion history and to the ingredient's rolling window, the
profile-wide overall waste rate becomes non-finite, and every rolling mean
over a window still containing that entry is non-finite. -/
theorem claim_C9 (jan1 : ℤ → Date) (p : ConsumptionProfile) (ing : String)
    (c : JsNum) (ts : Date) :
    ((recordConsumption jan1 p ing (.fin 0) c ts).2.wastePercentage).isFinite = false ∧
    (recordConsumption jan1 p ing (.fin 0) c ts).1.portionHistory =
      p.portionHistory ++ [(recordConsumption jan1 p ing (.fin 0) c ts).2] ∧
    ((alistLookup (recordConsumption jan1 p ing (.fin 0) c ts).1.wasteTracking ing).getD
        []).getLast? =
      some (recordConsumption jan1 p ing (.fin 0) c ts).2.wastePercentage ∧
    ((recordConsumption jan1 p ing (.fin 0) c ts).1.efficiency.overallWasteRate).isFinite =
      false ∧
    (∀ l1 l2 : List JsNum,
      (jsMean (l1 ++ (recordConsumption jan1 p ing (.fin 0) c ts).2.wastePercentage :: l2)).isFinite
        = false) := by
  have hpct : (wastePct (.fin 0) c).isFinite = false := by
    exact JsNum.isFinite_mul_fin _ _ (JsNum.isFinite_div_zero _)
  have hmem : wastePct (.fin 0) c ∈
      (if 30 < ((alistLookup p.wasteTracking ing).getD [] ++ [wastePct (.fin 0) c]).length
       then ((alistLookup p.wasteTracking ing).getD [] ++ [wastePct (.fin 0) c]).tail
       else (alistLookup p.wasteTracking ing).getD [] ++ [wastePct (.fin 0) c]) :=
    mem_trimmed _ _
  refine ⟨hpct, recordConsumption_portionHistory _ _ _ _ _ _, ?_, ?_, ?_⟩
  · rw [recordConsumption_wasteTracking, alistLookup_set_self, Option.getD_some]
    exact getLast_trimmed _ _
  · rw [recordConsumption_rate]
    refine calcRate_nonfinite (e := (ing, _)) ?_ hmem hpct
    rw [recordConsumption_wasteTracking]
    exact alistSet_self_mem _ _ _
  · intro l1 l2
    refine JsNum.isFinite_div_fin _ _ ?_
    exact sumJs_nonfinite (List.mem_append_right _ (List.mem_cons_self _ _)) hpct

open Consumption in
/-- C10: `predictDemand` has an inconsistent result shape: with no consumption
records for the ingredient in the last 30 days it returns a bare number (the
default portion times `daysAhead`); in every other case it returns the
structured prediction object. -/
theorem claim_C10 (sqrtFn : JsNum → JsNum) (p : ConsumptionProfile) (ing : String)
    (daysAhead : ℚ) (now : Date) :
    (getHistoricalConsumption p ing 30 now = [] →
      predictDemand sqrtFn p ing daysAhead now =
        .bare (JsNum.mul (getDefaultPortion ing) (.fin daysAhead))) ∧
    (getHistoricalConsumption p ing 30 now ≠ [] →
      ∃ pdc tpd conf hfac sfac tfac,
        predictDemand sqrtFn p ing daysAhead now =
          .structured ing daysAhead pdc tpd conf hfac sfac tfac) := by
  constructor
  · intro h
    simp only [predictDemand, h, List.length_nil]
    rw [if_pos trivial]
  · intro h
    have heq : predictDemand sqrtFn p ing daysAhead now =
        .structured ing daysAhead
          (JsNum.mul
            (JsNum.mul
              (JsNum.div (sumConsumed (getHistoricalConsumption p ing 30 now))
                (.fin (getHistoricalConsumption p ing 30 now).length))
              (getSeasonalMultiplier p ing (getSeason now) now))
            (getTrendMultiplier p ing now))
          (JsNum.mul
            (JsNum.mul
              (JsNum.mul
                (JsNum.div (sumConsumed (getHistoricalConsumption p ing 30 now))
                  (.fin (getHistoricalConsumption p ing 30 now).length))
                (.fin daysAhead))
              (getSeasonalMultiplier p ing (getSeason now) now))
            (getTrendMultiplier p ing now))
          (calculatePredictionConfidence sqrtFn p ing
            (getHistoricalConsumption p ing 30 now).length now)
          (JsNum.div (sumConsumed (getHistoricalConsumption p ing 30 now))
            (.fin (getHistoricalConsumption p ing 30 now).length))
          (getSeasonalMultiplier p ing (getSeason now) now)
          (getTrendMultiplier p ing now) := by
      simp only [predictDemand]
      rw [if_neg (by rw [List.length_eq_zero]; exact h)]
    exact ⟨_, _, _, _, _, _, heq⟩

open Consumption in
/-- C10, witness: an empty profile yields the bare number; a profile with one
recent lettuce record yields the structured object. -/
theorem claim_C10_witness :
    (getHistoricalConsumption emptyProfile "spinach" 30 d0 = [] ∧
      predictDemand (fun _ => .fin 0) emptyProfile "spinach" 7 d0 =
        .bare (JsNum.mul (getDefaultPortion "spinach") (.fin 7))) ∧
    (getHistoricalConsumption oneRecordProfile "lettuce" 30 d0 ≠ [] ∧
      ∃ pdc tpd conf hfac sfac tfac,
        predictDemand (fun _ => .fin 0) oneRecordProfile "lettuce" 7 d0 =
          .structured "lettuce" 7 pdc tpd conf hfac sfac tfac) := by
  have h1 : getHistoricalConsumption emptyProfile "spinach" 30 d0 = [] := rfl
  have h2 : getHistoricalConsumption oneRecordProfile "lettuce" 30 d0 ≠ [] := by decide
  exact ⟨⟨h1, (claim_C10 (fun _ => .fin 0) emptyProfile "spinach" 7 d0).1 h1⟩,
    ⟨h2, (claim_C10 (fun _ => .fin 0) oneRecordProfile "lettuce" 7 d0).2 h2⟩⟩
